import Mathlib

/-!
Shallow embedding of the DailyRoutines AppDaemon application
(`src/DailyRoutines.py` together with the action mixin
`src/routines_actions.py`).

The host scheduler (AppDaemon's `run_in` / `cancel_timer`) is modelled as
explicit state: a list of live one-shot timers, each with a unique handle,
a kind (which Python callback it will invoke) and the delay it was armed
with.  Every Python handler becomes a pure function from the application
state to a new state paired with the list of externally visible actions it
performed (service calls and log lines), in source order.

Python `datetime` values are modelled as integers counting seconds (the
naive clock reading relative to the Unix epoch); a timezone is an integer
offset in seconds east of UTC.  The stdlib parsing performed by
`datetime.fromisoformat` / `datetime.strptime` on the four formats listed
in the source is modelled on the canonical shapes they all accept:
`YYYY-MM-DD` then `T` or a space then `HH:MM:SS`, optionally followed by a
UTC offset `+HH:MM` or `-HH:MM`, with calendar-valid field ranges.

Python configuration values (`self.args`) are modelled by `PyVal`, with
`int()` conversion and truthiness translated from CPython's behaviour on
the value shapes a YAML config can produce.
-/

namespace DailyRoutines

/-- A Python float configuration value, modelled as the decimal it was
written as in the YAML file: `mantissa / 10 ^ exp10` (e.g. `30.5` is
`⟨305, 1⟩`). -/
structure PyFloat where
  mantissa : Int
  exp10 : Nat
deriving DecidableEq

/-- Truncation of a float toward zero, the behaviour of Python
`int(float)`. -/
def PyFloat.trunc (f : PyFloat) : Int :=
  if f.mantissa < 0 then -((f.mantissa.natAbs / 10 ^ f.exp10 : Nat) : Int)
  else ((f.mantissa.natAbs / 10 ^ f.exp10 : Nat) : Int)

/-- A Python configuration value as found in AppDaemon's `self.args`. -/
inductive PyVal where
  | vNone : PyVal
  | vStr (s : String) : PyVal
  | vInt (n : Int) : PyVal
  | vFloat (f : PyFloat) : PyVal
  | vBool (b : Bool) : PyVal
deriving DecidableEq

/-- Python truthiness of a configuration value (used by `if not value:`). -/
def PyVal.truthy : PyVal → Bool
  | .vNone => false
  | .vStr s => s ≠ ""
  | .vInt n => n ≠ 0
  | .vFloat f => f.mantissa ≠ 0
  | .vBool b => b

/-- The characters Python `str.strip()` removes. -/
def isPySpace (c : Char) : Bool :=
  c = ' ' || c = '\t' || c = '\n' || c = '\r' ||
    c = Char.ofNat 11 || c = Char.ofNat 12

/-- Python `str.strip()` on the character list of a string. -/
def pyStrip (cs : List Char) : List Char :=
  ((cs.dropWhile isPySpace).reverse.dropWhile isPySpace).reverse

/-- Numeric value of a decimal digit character. -/
def digitVal (c : Char) : Nat := c.toNat - 48

/-- Accumulate the decimal digits of a Python integer literal, allowing a
single underscore between two digits (CPython's rule). -/
def pyDigitsAux : Nat → List Char → Option Nat
  | acc, [] => some acc
  | acc, c :: rest =>
    if c.isDigit then pyDigitsAux (acc * 10 + digitVal c) rest
    else if c = '_' then
      match rest with
      | d :: rest2 => if d.isDigit then pyDigitsAux (acc * 10 + digitVal d) rest2 else none
      | [] => none
    else none

/-- Digits of a Python integer literal: nonempty and starting with a digit. -/
def pyDigits (cs : List Char) : Option Nat :=
  match cs with
  | c :: _ => if c.isDigit then pyDigitsAux 0 cs else none
  | [] => none

/-- Python `int(s)` on a string: strip whitespace, optional sign, digits. -/
def pyStrToInt (s : String) : Option Int :=
  match pyStrip s.toList with
  | '+' :: rest => (pyDigits rest).map (fun n => (n : Int))
  | '-' :: rest => (pyDigits rest).map (fun n => -(n : Int))
  | rest => (pyDigits rest).map (fun n => (n : Int))

/-- Python `int(value)` conversion: `none` means the call raises
(`TypeError` for `None`, `ValueError` for a malformed string). -/
def pyInt : PyVal → Option Int
  | .vNone => none
  | .vInt n => some n
  | .vBool b => some (if b then 1 else 0)
  | .vFloat f => some f.trunc
  | .vStr s => pyStrToInt s

/-- The AppDaemon `self.args` dictionary. -/
abbrev Args := List (String × PyVal)

/-- Python `self.args.get(key)`: `None` both when the key is absent and
when it is present with value `None`. -/
def pyDictGet (args : Args) (key : String) : PyVal :=
  match args.lookup key with
  | some v => v
  | none => .vNone

/-- Python `key in self.args`: key presence, regardless of the value. -/
def pyDictContains (args : Args) (key : String) : Bool :=
  (args.lookup key).isSome

/-- Translation of `DailyRoutines._get_required_arg`. -/
def get_required_arg (args : Args) (key : String) (aliases : List String) :
    Except String PyVal :=
  let value := pyDictGet args key
  let value :=
    if value = .vNone ∧ aliases ≠ [] then
      match aliases.find? (fun a => pyDictContains args a) with
      | some a => pyDictGet args a
      | none => .vNone
    else value
  if value = .vNone then
    .error ("Missing required app argument " ++ key)
  else
    .ok value

/-- Translation of `DailyRoutines._get_int_arg` (called with no default,
so `self.args.get(key, None)`). -/
def get_int_arg (args : Args) (key : String) : Except String Int :=
  let value := pyDictGet args key
  if value = .vNone then
    .error ("Missing required app argument " ++ key)
  else
    match pyInt value with
    | some n => .ok n
    | none => .error ("Invalid integer for app argument " ++ key)

/-- The configuration assembled by `DailyRoutines.initialize`. -/
structure Config where
  turn_off_lights_scene : PyVal
  warm_water_entity : PyVal
  awake_state_entity : PyVal
  next_awake_entity : PyVal
  prep_offset_minutes : Int
  goodmorning_lights_scene : PyVal
deriving DecidableEq

/-- Translation of the configuration-loading part of the app's
`initialize` method: each raised `ValueError` becomes `.error`. -/
def initConfig (args : Args) : Except String Config := do
  let lights ← get_required_arg args "turn_off_lights_scene" ["turn_off_ligts_scene"]
  let ww ← get_required_arg args "ww_activate" []
  let awake ← get_required_arg args "awake_state" []
  let nextAwake ← get_required_arg args "next_awake_time" []
  let offset ← get_int_arg args "prep_offset_minutes"
  let gm := pyDictGet args "goodmorning_lights_scene"
  pure ⟨lights, ww, awake, nextAwake, offset, gm⟩

/-! ### Timestamp parsing (`_parse_next_awake_time`) -/

/-- Gregorian leap-year test, as in Python's `datetime`. -/
def isLeapYear (y : Nat) : Bool :=
  (y % 4 = 0 && y % 100 ≠ 0) || y % 400 = 0

/-- Length in days of month `m` (1-based) of year `y`. -/
def daysInMonth (y m : Nat) : Nat :=
  if m = 2 then (if isLeapYear y then 29 else 28)
  else if m = 4 ∨ m = 6 ∨ m = 9 ∨ m = 11 then 30
  else 31

/-- Days in all years strictly before year `y` in the proleptic Gregorian
calendar, counted from 0001-01-01. -/
def daysBeforeYear (y : Nat) : Nat :=
  365 * (y - 1) + (y - 1) / 4 - (y - 1) / 100 + (y - 1) / 400

/-- Days in the months of year `y` strictly before month `m`. -/
def daysBeforeMonth (y m : Nat) : Nat :=
  (List.range (m - 1)).foldl (fun acc i => acc + daysInMonth y (i + 1)) 0

/-- Proleptic Gregorian ordinal of a date, with 0001-01-01 mapped to 1
(Python's `date.toordinal`). -/
def toOrdinal (y m d : Nat) : Nat :=
  daysBeforeYear y + daysBeforeMonth y m + d

/-- Ordinal of the Unix epoch 1970-01-01. -/
def epochOrdinal : Nat := 719163

/-- Two decimal digits read at position `i`. -/
def twoDigitsAt (cs : List Char) (i : Nat) : Option Nat :=
  match cs.get? i, cs.get? (i + 1) with
  | some a, some b =>
    if a.isDigit && b.isDigit then some (digitVal a * 10 + digitVal b) else none
  | _, _ => none

/-- Parse the 19-character body `YYYY-MM-DD?HH:MM:SS` (`?` a `T` or a
space) into naive seconds since the epoch, validating field ranges the way
`datetime` does. -/
def parseBody (cs : List Char) : Option Int :=
  match twoDigitsAt cs 0, twoDigitsAt cs 2, cs.get? 4, twoDigitsAt cs 5,
      cs.get? 7, twoDigitsAt cs 8, cs.get? 10, twoDigitsAt cs 11,
      cs.get? 13, twoDigitsAt cs 14, cs.get? 16, twoDigitsAt cs 17 with
  | some yh, some yl, some '-', some mo, some '-', some dy, some sep,
      some hr, some ':', some mi, some ':', some sec =>
    let y := yh * 100 + yl
    if (sep = 'T' ∨ sep = ' ') ∧ 1 ≤ y ∧ 1 ≤ mo ∧ mo ≤ 12 ∧ 1 ≤ dy ∧
        dy ≤ daysInMonth y mo ∧ hr ≤ 23 ∧ mi ≤ 59 ∧ sec ≤ 59 then
      some (((toOrdinal y mo dy : Int) - (epochOrdinal : Int)) * 86400 +
        ((hr * 3600 + mi * 60 + sec : Nat) : Int))
    else none
  | _, _, _, _, _, _, _, _, _, _, _, _ => none

/-- Parse a trailing UTC offset `+HH:MM` or `-HH:MM` into seconds east of
UTC. -/
def parseOffsetTail (cs : List Char) : Option Int :=
  match cs.get? 0, twoDigitsAt cs 1, cs.get? 3, twoDigitsAt cs 4 with
  | some sg, some oh, some ':', some om =>
    if (sg = '+' ∨ sg = '-') ∧ oh ≤ 23 ∧ om ≤ 59 then
      some ((if sg = '-' then -1 else 1) * ((oh * 3600 + om * 60 : Nat) : Int))
    else none
  | _, _, _, _ => none

/-- A parsed datetime before timezone defaulting: the naive clock reading
in seconds and the explicit UTC offset, if the string carried one
(`tzinfo is None` in Python is `tzOffset = none`). -/
structure NaiveDT where
  naiveSeconds : Int
  tzOffset : Option Int
deriving DecidableEq

/-- The datetime grammar accepted by the parsing pipeline of
`_parse_next_awake_time` (post `Z` replacement): a 19-character body,
optionally followed by a 6-character UTC offset. -/
def parseIsoDT (cs : List Char) : Option NaiveDT :=
  if cs.length = 19 then
    (parseBody cs).map (fun n => ⟨n, none⟩)
  else if cs.length = 25 then
    match parseBody (cs.take 19), parseOffsetTail (cs.drop 19) with
    | some n, some off => some ⟨n, some off⟩
    | _, _ => none
  else none

/-- The preprocessing of `_parse_next_awake_time`: strip, then rewrite a
trailing `Z` to `+00:00`. -/
def preprocessRaw (value : String) : List Char :=
  let raw := pyStrip value.toList
  if raw.getLast? = some 'Z' then
    raw.dropLast ++ ['+', '0', '0', ':', '0', '0']
  else raw

/-- Translation of `DailyRoutines._parse_next_awake_time`: returns the
aware instant as (seconds since the Unix epoch, attached UTC offset), or
`none` when the Python code raises `ValueError`.  A string without an
explicit offset is assigned the process-local timezone `localTz`. -/
def parse_next_awake_time (localTz : Int) (value : String) : Option (Int × Int) :=
  match parseIsoDT (preprocessRaw value) with
  | none => none
  | some d =>
    let off := d.tzOffset.getD localTz
    some (d.naiveSeconds - off, off)

/-! ### The host timer model and the scheduler handlers -/

/-- Which Python callback a live timer will invoke when it fires. -/
inductive TimerKind where
  | prep : TimerKind
  | prepEnd : TimerKind
deriving DecidableEq

/-- A live one-shot timer of the host scheduler: the handle returned by
`run_in`, the callback it is armed for, and the delay it was armed with
(in seconds). -/
structure Timer where
  handle : Nat
  kind : TimerKind
  delay : Int
deriving DecidableEq

/-- The host scheduler's state: the live timers and a fresh-handle
counter. -/
structure HostState where
  live : List Timer
  nextHandle : Nat
deriving DecidableEq

/-- `self.run_in(callback, delay)`: arm a fresh one-shot timer and return
its handle. -/
def runIn (host : HostState) (k : TimerKind) (delay : Int) : Nat × HostState :=
  (host.nextHandle,
    ⟨⟨host.nextHandle, k, delay⟩ :: host.live, host.nextHandle + 1⟩)

/-- `self.cancel_timer(handle)`: idempotent removal of a live timer. -/
def cancelTimer (host : HostState) (h : Nat) : HostState :=
  ⟨host.live.filter (fun t => t.handle != h), host.nextHandle⟩

/-- The application state: the host scheduler plus the two handle fields
`_prep_timer_handle` and `_prep_end_timer_handle`. -/
structure AppState where
  host : HostState
  prepTimerHandle : Option Nat
  prepEndTimerHandle : Option Nat
deriving DecidableEq

/-- State right after `initialize`: both handles `None`, no live timer. -/
def initState : AppState := ⟨⟨[], 0⟩, none, none⟩

/-- An externally visible effect of a handler: a Home Assistant service
call (`turn_on` / `turn_off`) or a log line at some severity. -/
inductive Action where
  | turnOn (entity : PyVal) : Action
  | turnOff (entity : PyVal) : Action
  | logDebug : Action
  | logInfo : Action
  | logWarning : Action
  | logError : Action
deriving DecidableEq

/-- Translation of `DailyRoutinesActionsMixin.turn_warm_water`. -/
def turn_warm_water (cfg : Config) (state : Bool) : List Action :=
  if state then [Action.turnOn cfg.warm_water_entity]
  else [Action.turnOff cfg.warm_water_entity]

/-- Translation of `DailyRoutinesActionsMixin.activate_turn_off_lights_scene`. -/
def activate_turn_off_lights_scene (cfg : Config) : List Action :=
  [Action.turnOn cfg.turn_off_lights_scene]

/-- Translation of `DailyRoutinesActionsMixin.activate_goodmorning_lights_scene`:
the guard is Python truthiness of the configured value. -/
def activate_goodmorning_lights_scene (cfg : Config) : List Action :=
  if !cfg.goodmorning_lights_scene.truthy then [Action.logWarning]
  else [Action.turnOn cfg.goodmorning_lights_scene]

/-- The fixed preparation duration `FIVE_MINUTES_SECONDS = 5 * 60`. -/
def FIVE_MINUTES_SECONDS : Int := 5 * 60

/-- Translation of `DailyRoutines.awake_preparation_tasks`: clear the prep
handle, turn warm water on, cancel a previous prep-end timer if any, arm a
fresh prep-end timer for `FIVE_MINUTES_SECONDS`. -/
def awake_preparation_tasks (cfg : Config) (s : AppState) :
    AppState × List Action :=
  let acts0 : List Action := [Action.logInfo]
  let s := { s with prepTimerHandle := none }
  let acts1 := acts0 ++ turn_warm_water cfg true
  let (s, acts2) :=
    match s.prepEndTimerHandle with
    | some h => ({ s with host := cancelTimer s.host h }, acts1 ++ [Action.logDebug])
    | none => (s, acts1)
  let (h, host) := runIn s.host .prepEnd FIVE_MINUTES_SECONDS
  ({ s with host := host, prepEndTimerHandle := some h }, acts2 ++ [Action.logDebug])

/-- Translation of `DailyRoutines.awake_preparation_tasks_end`: turn warm
water off and clear the prep-end handle. -/
def awake_preparation_tasks_end (cfg : Config) (s : AppState) :
    AppState × List Action :=
  ({ s with prepEndTimerHandle := none },
    [Action.logInfo] ++ turn_warm_water cfg false)

/-- The unconditional cancel step at the top of `next_awake_set`: if a
prep timer is tracked, cancel it and clear the handle. -/
def cancelPrepState (s : AppState) : AppState :=
  match s.prepTimerHandle with
  | some h => { s with host := cancelTimer s.host h, prepTimerHandle := none }
  | none => s

/-- Translation of `DailyRoutines.next_awake_set`.  `new` is the entity's
new string value; `now` is `datetime.now()` as epoch seconds (the
`astimezone` call only changes the display timezone, not the instant).
A `ValueError` from parsing is caught and logged. -/
def next_awake_set (cfg : Config) (localTz : Int) (new : String) (now : Int)
    (s : AppState) : AppState × List Action :=
  match parse_next_awake_time localTz new with
  | none => (s, [Action.logDebug, Action.logError])
  | some (next_awake_time, _tzoff) =>
    let prep_time := next_awake_time - cfg.prep_offset_minutes * 60
    let cancelActs : List Action :=
      match s.prepTimerHandle with
      | some _ => [Action.logDebug]
      | none => []
    let s := cancelPrepState s
    let acts1 := [Action.logDebug, Action.logDebug] ++ cancelActs
    if now < prep_time then
      let seconds_until_prep := prep_time - now
      let (h, host) := runIn s.host .prep seconds_until_prep
      ({ s with host := host, prepTimerHandle := some h }, acts1 ++ [Action.logInfo])
    else if now < next_awake_time then
      if s.prepEndTimerHandle.isSome then
        (s, acts1 ++ [Action.logDebug])
      else
        let (s2, acts2) := awake_preparation_tasks cfg s
        (s2, acts1 ++ [Action.logDebug] ++ acts2)
    else
      (s, acts1 ++ [Action.logDebug])

/-- Translation of `DailyRoutines.goodnight_triggered`: lights-off scene,
then warm water off; no timer interaction. -/
def goodnight_triggered (cfg : Config) (s : AppState) :
    AppState × List Action :=
  (s, activate_turn_off_lights_scene cfg ++ turn_warm_water cfg false ++ [Action.logInfo])

/-- Translation of `DailyRoutines.awake_triggered`. -/
def awake_triggered (cfg : Config) (s : AppState) : AppState × List Action :=
  (s, activate_goodmorning_lights_scene cfg ++ [Action.logInfo])

/-- The host firing a live timer with handle `h`: the timer is no longer
live when its callback runs; a handle that is not live fires nothing. -/
def fireTimer (cfg : Config) (s : AppState) (h : Nat) : AppState × List Action :=
  match s.host.live.find? (fun t => t.handle == h) with
  | none => (s, [])
  | some t =>
    let s := { s with host := cancelTimer s.host h }
    match t.kind with
    | .prep => awake_preparation_tasks cfg s
    | .prepEnd => awake_preparation_tasks_end cfg s

/-- An event delivered to the module by the host: a wake-time update, a
timer callback, or a sleep/awake transition. -/
inductive Event where
  | wakeUpdate (new : String) (now : Int) : Event
  | fire (h : Nat) : Event
  | goodnight : Event
  | awake : Event

/-- One host dispatch into the module. -/
def step (cfg : Config) (localTz : Int) (s : AppState) (e : Event) :
    AppState × List Action :=
  match e with
  | .wakeUpdate new now => next_awake_set cfg localTz new now s
  | .fire h => fireTimer cfg s h
  | .goodnight => goodnight_triggered cfg s
  | .awake => awake_triggered cfg s

/-- The state after a sequence of host events. -/
def run (cfg : Config) (localTz : Int) (s : AppState) (es : List Event) :
    AppState :=
  es.foldl (fun s e => (step cfg localTz s e).1) s

/-- Number of live timers of a given kind. -/
def liveCount (host : HostState) (k : TimerKind) : Nat :=
  (host.live.filter (fun t => t.kind == k)).length

/-- A concrete configuration used to exercise the theorems below. -/
def sampleConfig : Config :=
  ⟨.vStr "scene.lights_off", .vStr "switch.ww", .vStr "sensor.awake",
    .vStr "sensor.next", 30, .vNone⟩

/-- A concrete argument dictionary whose offset is the float `30.5`. -/
def sampleArgsFloat : Args :=
  [("turn_off_lights_scene", .vStr "scene.off"),
   ("ww_activate", .vStr "switch.ww"),
   ("awake_state", .vStr "sensor.state"),
   ("next_awake_time", .vStr "sensor.next"),
   ("prep_offset_minutes", .vFloat ⟨305, 1⟩)]

/-- The condition under which `initConfig` succeeds, as the specification
states it: every required key reachable (directly or through the legacy
alias) and an `int()`-convertible offset value. -/
def requiredConfigPresent (args : Args) : Prop :=
  (pyDictContains args "turn_off_lights_scene" = true ∨
    pyDictContains args "turn_off_ligts_scene" = true) ∧
  pyDictContains args "ww_activate" = true ∧
  pyDictContains args "awake_state" = true ∧
  pyDictContains args "next_awake_time" = true ∧
  pyInt (pyDictGet args "prep_offset_minutes") ≠ none

/-! ### The handle-tracking invariant -/

/-- Every live handle is below the fresh-handle counter. -/
def Bounded (s : AppState) : Prop :=
  ∀ t ∈ s.host.live, t.handle < s.host.nextHandle

/-- Live timer handles are pairwise distinct. -/
def HandlesNodup (s : AppState) : Prop :=
  (s.host.live.map Timer.handle).Nodup

/-- Every live prep timer is the one `_prep_timer_handle` points to. -/
def PrepTracked (s : AppState) : Prop :=
  ∀ t ∈ s.host.live, t.kind = TimerKind.prep →
    s.prepTimerHandle = some t.handle

/-- Every live prep-end timer is the one `_prep_end_timer_handle` points to. -/
def PrepEndTracked (s : AppState) : Prop :=
  ∀ t ∈ s.host.live, t.kind = TimerKind.prepEnd →
    s.prepEndTimerHandle = some t.handle

/-- A non-`None` `_prep_timer_handle` points to a live prep timer. -/
def PrepHandleLive (s : AppState) : Prop :=
  ∀ h, s.prepTimerHandle = some h →
    ∃ t ∈ s.host.live, t.kind = TimerKind.prep ∧ t.handle = h

/-- A non-`None` `_prep_end_timer_handle` points to a live prep-end timer. -/
def PrepEndHandleLive (s : AppState) : Prop :=
  ∀ h, s.prepEndTimerHandle = some h →
    ∃ t ∈ s.host.live, t.kind = TimerKind.prepEnd ∧ t.handle = h

/-- The scheduler invariant: the two handle fields track the live timers
exactly, and live handles are fresh and distinct. -/
def Inv (s : AppState) : Prop :=
  Bounded s ∧ HandlesNodup s ∧ PrepTracked s ∧ PrepEndTracked s ∧
    PrepHandleLive s ∧ PrepEndHandleLive s

instance decPrepHandleLive (s : AppState) : Decidable (PrepHandleLive s) :=
  decidable_of_iff
    (∀ h ∈ s.prepTimerHandle.toList,
      ∃ t ∈ s.host.live, t.kind = TimerKind.prep ∧ t.handle = h)
    (by cases hh : s.prepTimerHandle <;> simp [PrepHandleLive, hh])

instance decPrepEndHandleLive (s : AppState) : Decidable (PrepEndHandleLive s) :=
  decidable_of_iff
    (∀ h ∈ s.prepEndTimerHandle.toList,
      ∃ t ∈ s.host.live, t.kind = TimerKind.prepEnd ∧ t.handle = h)
    (by cases hh : s.prepEndTimerHandle <;> simp [PrepEndHandleLive, hh])

instance decBounded (s : AppState) : Decidable (Bounded s) := by
  unfold Bounded; infer_instance

instance decHandlesNodup (s : AppState) : Decidable (HandlesNodup s) := by
  unfold HandlesNodup; infer_instance

instance decPrepTracked (s : AppState) : Decidable (PrepTracked s) := by
  unfold PrepTracked; infer_instance

instance decPrepEndTracked (s : AppState) : Decidable (PrepEndTracked s) := by
  unfold PrepEndTracked; infer_instance

instance decInv (s : AppState) : Decidable (Inv s) := by
  unfold Inv; infer_instance

theorem mem_cancelTimer {host : HostState} {h : Nat} {t : Timer} :
    t ∈ (cancelTimer host h).live ↔ t ∈ host.live ∧ t.handle ≠ h := by
  simp [cancelTimer, List.mem_filter]

theorem nodup_cancelTimer {host : HostState} {h : Nat}
    (hn : (host.live.map Timer.handle).Nodup) :
    ((cancelTimer host h).live.map Timer.handle).Nodup :=
  hn.sublist ((List.filter_sublist _).map _)

/-- Two distinct live timers have distinct handles when handles are
nodup; in particular a live prep timer and a live prep-end timer never
share a handle. -/
theorem handle_ne_of_kind_ne {s : AppState} (hn : HandlesNodup s)
    {t u : Timer} (ht : t ∈ s.host.live) (hu : u ∈ s.host.live)
    (hk : t.kind ≠ u.kind) : t.handle ≠ u.handle := by
  intro heq
  have := List.inj_on_of_nodup_map hn ht hu heq
  exact hk (this ▸ rfl)

/-- A list of timers with pairwise-distinct handles that all equal one
fixed handle has at most one element. -/
theorem length_le_one_of_const_handle {l : List Timer} {c : Nat}
    (hn : (l.map Timer.handle).Nodup) (hall : ∀ t ∈ l, t.handle = c) :
    l.length ≤ 1 := by
  match l, hn, hall with
  | [], _, _ => simp
  | [t], _, _ => simp
  | t :: u :: rest, hn, hall =>
    exfalso
    have ht : t.handle = c := hall t (by simp)
    have hu : u.handle = c := hall u (by simp)
    have : t.handle ∉ (u :: rest).map Timer.handle := by
      simpa using (List.nodup_cons.mp hn).1
    exact this (by simp [ht, hu])

/-- Under the invariant there is at most one live timer of each kind. -/
theorem liveCount_le_one_of_inv {s : AppState} (hI : Inv s) (k : TimerKind) :
    liveCount s.host k ≤ 1 := by
  obtain ⟨hb, hn, hpt, het, hpl, hel⟩ := hI
  have hsub : ((s.host.live.filter (fun t => t.kind == k)).map Timer.handle).Nodup :=
    hn.sublist ((List.filter_sublist _).map _)
  unfold liveCount
  cases k with
  | prep =>
    cases hh : s.prepTimerHandle with
    | none =>
      have : s.host.live.filter (fun t => t.kind == TimerKind.prep) = [] := by
        rw [List.filter_eq_nil_iff]
        intro t ht hk
        have := hpt t ht (by simpa using hk)
        rw [hh] at this; exact Option.noConfusion this
      simp [this]
    | some c =>
      refine length_le_one_of_const_handle (c := c) hsub ?_
      intro t ht
      have hmem := (List.mem_filter.mp ht).1
      have hk : t.kind = TimerKind.prep := by
        simpa using (List.mem_filter.mp ht).2
      have := hpt t hmem hk
      rw [hh] at this
      exact (Option.some_inj.mp this).symm
  | prepEnd =>
    cases hh : s.prepEndTimerHandle with
    | none =>
      have : s.host.live.filter (fun t => t.kind == TimerKind.prepEnd) = [] := by
        rw [List.filter_eq_nil_iff]
        intro t ht hk
        have := het t ht (by simpa using hk)
        rw [hh] at this; exact Option.noConfusion this
      simp [this]
    | some c =>
      refine length_le_one_of_const_handle (c := c) hsub ?_
      intro t ht
      have hmem := (List.mem_filter.mp ht).1
      have hk : t.kind = TimerKind.prepEnd := by
        simpa using (List.mem_filter.mp ht).2
      have := het t hmem hk
      rw [hh] at this
      exact (Option.some_inj.mp this).symm

/-! ### Shape lemmas for the handlers -/

theorem awake_preparation_tasks_fst (cfg : Config) (s : AppState) :
    (awake_preparation_tasks cfg s).1 =
      ⟨⟨⟨s.host.nextHandle, TimerKind.prepEnd, FIVE_MINUTES_SECONDS⟩ ::
          (match s.prepEndTimerHandle with
            | some h => (cancelTimer s.host h).live
            | none => s.host.live),
        s.host.nextHandle + 1⟩, none, some s.host.nextHandle⟩ := by
  cases hE : s.prepEndTimerHandle <;>
    simp [awake_preparation_tasks, runIn, cancelTimer, hE]

theorem awake_preparation_tasks_snd (cfg : Config) (s : AppState) :
    (awake_preparation_tasks cfg s).2 =
      match s.prepEndTimerHandle with
      | some _ => [Action.logInfo, Action.turnOn cfg.warm_water_entity,
          Action.logDebug, Action.logDebug]
      | none => [Action.logInfo, Action.turnOn cfg.warm_water_entity,
          Action.logDebug] := by
  cases hE : s.prepEndTimerHandle <;>
    simp [awake_preparation_tasks, runIn, turn_warm_water, hE]

/-- Properties of the cancel step of `next_awake_set` under the
invariant: no prep timer survives, the prep handle is cleared, and the
prep-end side is untouched. -/
theorem cancelPrepState_spec {s : AppState} (hI : Inv s) :
    Bounded (cancelPrepState s) ∧ HandlesNodup (cancelPrepState s) ∧
    (cancelPrepState s).prepTimerHandle = none ∧
    (∀ t ∈ (cancelPrepState s).host.live, t.kind ≠ TimerKind.prep) ∧
    (cancelPrepState s).prepEndTimerHandle = s.prepEndTimerHandle ∧
    (cancelPrepState s).host.nextHandle = s.host.nextHandle ∧
    (cancelPrepState s).host.live.filter (fun t => t.kind == TimerKind.prepEnd) =
      s.host.live.filter (fun t => t.kind == TimerKind.prepEnd) ∧
    (∀ t ∈ (cancelPrepState s).host.live, t ∈ s.host.live) := by
  obtain ⟨hb, hn, hpt, het, hpl, hel⟩ := hI
  cases hP : s.prepTimerHandle with
  | none =>
    rw [show cancelPrepState s = s from by simp [cancelPrepState, hP]]
    refine ⟨hb, hn, hP, ?_, rfl, rfl, rfl, fun t ht => ht⟩
    intro t ht hk
    have := hpt t ht hk
    rw [hP] at this; exact Option.noConfusion this
  | some h =>
    have hesub : ∀ t ∈ s.host.live, t.kind = TimerKind.prepEnd → t.handle ≠ h := by
      intro t ht hk
      obtain ⟨p, hpmem, hpkind, hphandle⟩ := hpl h hP
      have : t.handle ≠ p.handle :=
        handle_ne_of_kind_ne hn ht hpmem (by rw [hk, hpkind]; intro q; cases q)
      rw [hphandle] at this; exact this
    rw [show cancelPrepState s =
        { s with host := cancelTimer s.host h, prepTimerHandle := none } from by
      simp [cancelPrepState, hP]]
    refine ⟨?_, ?_, rfl, ?_, rfl, rfl, ?_, ?_⟩
    · intro t ht
      exact hb t (mem_cancelTimer.mp ht).1
    · exact nodup_cancelTimer hn
    · intro t ht hk
      obtain ⟨htl, hne⟩ := mem_cancelTimer.mp ht
      have := hpt t htl hk
      rw [hP] at this
      exact hne (Option.some_inj.mp this).symm
    · show (s.host.live.filter (fun t => t.handle != h)).filter
          (fun t => t.kind == TimerKind.prepEnd) =
        s.host.live.filter (fun t => t.kind == TimerKind.prepEnd)
      rw [List.filter_filter]
      apply List.filter_congr
      intro t ht
      by_cases hk : t.kind = TimerKind.prepEnd
      · have := hesub t ht hk
        simp [hk, this]
      · simp [hk]
    · intro t ht
      exact (mem_cancelTimer.mp ht).1

/-! ### Invariant preservation -/

/-- `awake_preparation_tasks` reestablishes the invariant whenever it is
invoked in a state with no live prep timer (which is how both call sites
reach it). -/
theorem awake_preparation_tasks_inv (cfg : Config) (s : AppState)
    (hb : Bounded s) (hn : HandlesNodup s)
    (hnoprep : ∀ t ∈ s.host.live, t.kind ≠ TimerKind.prep)
    (het : PrepEndTracked s) :
    Inv (awake_preparation_tasks cfg s).1 := by
  rw [awake_preparation_tasks_fst]
  have hlive0 : ∀ t, t ∈ (match s.prepEndTimerHandle with
      | some h => (cancelTimer s.host h).live
      | none => s.host.live) → t ∈ s.host.live ∧ t.kind ≠ TimerKind.prepEnd := by
    intro t ht
    cases hE : s.prepEndTimerHandle with
    | none =>
      rw [hE] at ht
      refine ⟨ht, fun hk => ?_⟩
      have := het t ht hk
      rw [hE] at this; exact Option.noConfusion this
    | some h =>
      rw [hE] at ht
      obtain ⟨htl, hne⟩ := mem_cancelTimer.mp ht
      refine ⟨htl, fun hk => ?_⟩
      have := het t htl hk
      rw [hE] at this
      exact hne (Option.some_inj.mp this).symm
  refine ⟨?_, ?_, ?_, ?_, ?_, ?_⟩
  · intro t ht
    rcases List.mem_cons.mp ht with h1 | h1
    · subst h1; exact Nat.lt_succ_self _
    · exact Nat.lt_succ_of_lt (hb t (hlive0 t h1).1)
  · unfold HandlesNodup
    simp only [List.map_cons]
    rw [List.nodup_cons]
    constructor
    · intro hmem
      obtain ⟨t, ht, hh⟩ := List.mem_map.mp hmem
      have := hb t (hlive0 t ht).1
      simp only [hh] at this
      exact Nat.lt_irrefl _ this
    · cases hE : s.prepEndTimerHandle with
      | none => exact hn
      | some h => exact nodup_cancelTimer hn
  · intro t ht hk
    rcases List.mem_cons.mp ht with h1 | h1
    · subst h1; exact absurd hk (by intro q; cases q)
    · exact absurd hk (hnoprep t (hlive0 t h1).1)
  · intro t ht hk
    rcases List.mem_cons.mp ht with h1 | h1
    · subst h1; rfl
    · exact absurd hk (hlive0 t h1).2
  · intro h hsome
    exact Option.noConfusion hsome
  · intro h hsome
    refine ⟨⟨s.host.nextHandle, TimerKind.prepEnd, FIVE_MINUTES_SECONDS⟩,
      List.mem_cons_self _ _, rfl, ?_⟩
    exact (Option.some_inj.mp hsome)

/-- `awake_preparation_tasks_end` reestablishes the invariant whenever it
runs in a state with no live prep-end timer (the host removed the fired
timer before invoking it). -/
theorem awake_preparation_tasks_end_inv (cfg : Config) (s : AppState)
    (hb : Bounded s) (hn : HandlesNodup s) (hpt : PrepTracked s)
    (hpl : PrepHandleLive s)
    (hnoend : ∀ t ∈ s.host.live, t.kind ≠ TimerKind.prepEnd) :
    Inv (awake_preparation_tasks_end cfg s).1 := by
  unfold awake_preparation_tasks_end
  refine ⟨hb, hn, ?_, ?_, ?_, ?_⟩
  · intro t ht hk; exact hpt t ht hk
  · intro t ht hk; exact absurd hk (hnoend t ht)
  · intro h hsome; exact hpl h hsome
  · intro h hsome; exact Option.noConfusion hsome

/-- `next_awake_set` preserves the invariant. -/
theorem next_awake_set_inv (cfg : Config) (localTz : Int) (new : String)
    (now : Int) (s : AppState) (hI : Inv s) :
    Inv (next_awake_set cfg localTz new now s).1 := by
  unfold next_awake_set
  cases hp : parse_next_awake_time localTz new with
  | none => exact hI
  | some r =>
    obtain ⟨wake, tzoff⟩ := r
    obtain ⟨hb1, hn1, hP1, hnoprep1, hE1, hNH1, hfilt1, hsub1⟩ :=
      cancelPrepState_spec hI
    obtain ⟨hb, hn, hpt, het, hpl, hel⟩ := hI
    have hendlive : ∀ h, s.prepEndTimerHandle = some h →
        ∃ t ∈ (cancelPrepState s).host.live,
          t.kind = TimerKind.prepEnd ∧ t.handle = h := by
      intro h hsome
      obtain ⟨t, ht, hk, hh⟩ := hel h hsome
      have : t ∈ (cancelPrepState s).host.live.filter
          (fun u => u.kind == TimerKind.prepEnd) := by
        rw [hfilt1]
        exact List.mem_filter.mpr ⟨ht, by simp [hk]⟩
      exact ⟨t, (List.mem_filter.mp this).1, hk, hh⟩
    simp only
    split
    · -- arm a fresh prep timer
      simp only [runIn]
      refine ⟨?_, ?_, ?_, ?_, ?_, ?_⟩
      · intro t ht
        rcases List.mem_cons.mp ht with h1 | h1
        · subst h1; exact Nat.lt_succ_self _
        · exact Nat.lt_succ_of_lt (hb1 t h1)
      · unfold HandlesNodup
        simp only [List.map_cons]
        rw [List.nodup_cons]
        refine ⟨?_, hn1⟩
        intro hmem
        obtain ⟨t, ht, hh⟩ := List.mem_map.mp hmem
        have := hb1 t ht
        simp only [hh] at this
        exact Nat.lt_irrefl _ this
      · intro t ht hk
        rcases List.mem_cons.mp ht with h1 | h1
        · subst h1; rfl
        · exact absurd hk (hnoprep1 t h1)
      · intro t ht hk
        rcases List.mem_cons.mp ht with h1 | h1
        · subst h1; exact absurd hk (by intro q; cases q)
        · exact hE1.trans (het t (hsub1 t h1) hk)
      · intro h hsome
        exact ⟨⟨(cancelPrepState s).host.nextHandle, TimerKind.prep, _⟩,
          List.mem_cons_self _ _, rfl, Option.some_inj.mp hsome⟩
      · intro h hsome
        have hsome2 : s.prepEndTimerHandle = some h := hE1.symm.trans hsome
        obtain ⟨t, ht, hk, hh⟩ := hendlive h hsome2
        exact ⟨t, List.mem_cons_of_mem _ ht, hk, hh⟩
    · split
      · split
        · -- prep-end timer tracked: early return, state is cancelPrepState s
          refine ⟨hb1, hn1, ?_, ?_, ?_, ?_⟩
          · intro t ht hk; exact absurd hk (hnoprep1 t ht)
          · intro t ht hk; exact hE1.trans (het t (hsub1 t ht) hk)
          · intro h hsome
            exact Option.noConfusion (hP1.symm.trans hsome)
          · intro h hsome
            exact hendlive h (hE1.symm.trans hsome)
        · -- run preparation synchronously
          refine awake_preparation_tasks_inv cfg _ hb1 hn1 hnoprep1 ?_
          intro t ht hk
          exact hE1.trans (het t (hsub1 t ht) hk)
      · -- window already passed
        refine ⟨hb1, hn1, ?_, ?_, ?_, ?_⟩
        · intro t ht hk; exact absurd hk (hnoprep1 t ht)
        · intro t ht hk; exact hE1.trans (het t (hsub1 t ht) hk)
        · intro h hsome
          exact Option.noConfusion (hP1.symm.trans hsome)
        · intro h hsome
          exact hendlive h (hE1.symm.trans hsome)

/-- Firing a timer preserves the invariant. -/
theorem fireTimer_inv (cfg : Config) (s : AppState) (h : Nat) (hI : Inv s) :
    Inv (fireTimer cfg s h).1 := by
  obtain ⟨hb, hn, hpt, het, hpl, hel⟩ := hI
  unfold fireTimer
  cases hf : s.host.live.find? (fun t => t.handle == h) with
  | none => exact ⟨hb, hn, hpt, het, hpl, hel⟩
  | some t =>
    have htl : t ∈ s.host.live := List.mem_of_find?_eq_some hf
    have hth : t.handle = h := by
      have := List.find?_some hf
      simpa using this
    have hbc : Bounded { s with host := cancelTimer s.host h } := by
      intro u hu; exact hb u (mem_cancelTimer.mp hu).1
    have hnc : HandlesNodup { s with host := cancelTimer s.host h } :=
      nodup_cancelTimer hn
    cases hk : t.kind with
    | prep =>
      simp only [hk]
      refine awake_preparation_tasks_inv cfg _ hbc hnc ?_ ?_
      · intro u hu huk
        obtain ⟨hul, hune⟩ := mem_cancelTimer.mp hu
        have h1 := hpt u hul huk
        have h2 := hpt t htl hk
        rw [h1] at h2
        exact hune (hth ▸ (Option.some_inj.mp h2))
      · intro u hu huk
        exact het u (mem_cancelTimer.mp hu).1 huk
    | prepEnd =>
      simp only [hk]
      refine awake_preparation_tasks_end_inv cfg _ hbc hnc ?_ ?_ ?_
      · intro u hu huk
        exact hpt u (mem_cancelTimer.mp hu).1 huk
      · intro h2 hsome
        obtain ⟨u, hul, huk, huh⟩ := hpl h2 hsome
        refine ⟨u, mem_cancelTimer.mpr ⟨hul, ?_⟩, huk, huh⟩
        have : u.handle ≠ t.handle :=
          handle_ne_of_kind_ne hn hul htl (by rw [huk, hk]; intro q; cases q)
        rw [hth] at this; exact this
      · intro u hu huk
        obtain ⟨hul, hune⟩ := mem_cancelTimer.mp hu
        have h1 := het u hul huk
        have h2 := het t htl hk
        rw [h1] at h2
        exact hune (hth ▸ (Option.some_inj.mp h2))

/-- Every host dispatch preserves the invariant. -/
theorem step_inv (cfg : Config) (localTz : Int) (s : AppState) (e : Event)
    (hI : Inv s) : Inv (step cfg localTz s e).1 := by
  cases e with
  | wakeUpdate new now => exact next_awake_set_inv cfg localTz new now s hI
  | fire h => exact fireTimer_inv cfg s h hI
  | goodnight => exact hI
  | awake => exact hI

/-- The invariant holds along every event sequence from an invariant
state. -/
theorem run_inv (cfg : Config) (localTz : Int) (es : List Event)
    (s : AppState) (hI : Inv s) : Inv (run cfg localTz s es) := by
  induction es generalizing s with
  | nil => exact hI
  | cons e es ih =>
    exact ih _ (step_inv cfg localTz s e hI)

/-- The invariant holds right after `initialize`. -/
theorem initState_inv : Inv initState := by decide

/-- After the cancel step inside `awake_preparation_tasks`, no live
prep-end timer remains (under handle tracking). -/
theorem no_prepEnd_after_cancel {s : AppState} (het : PrepEndTracked s) :
    ∀ t, t ∈ (match s.prepEndTimerHandle with
        | some h => (cancelTimer s.host h).live
        | none => s.host.live) →
      t ∈ s.host.live ∧ t.kind ≠ TimerKind.prepEnd := by
  intro t ht
  cases hE : s.prepEndTimerHandle with
  | none =>
    rw [hE] at ht
    refine ⟨ht, fun hk => ?_⟩
    have := het t ht hk
    rw [hE] at this; exact Option.noConfusion this
  | some h =>
    rw [hE] at ht
    obtain ⟨htl, hne⟩ := mem_cancelTimer.mp ht
    refine ⟨htl, fun hk => ?_⟩
    have := het t htl hk
    rw [hE] at this
    exact hne (Option.some_inj.mp this).symm

/-- Under the invariant, a live prep-end timer exists exactly when
`_prep_end_timer_handle` is set. -/
theorem prepEndLive_iff_handle {s : AppState} (hI : Inv s) :
    0 < liveCount s.host TimerKind.prepEnd ↔ s.prepEndTimerHandle.isSome := by
  obtain ⟨hb, hn, hpt, het, hpl, hel⟩ := hI
  constructor
  · intro hpos
    have hne : s.host.live.filter (fun t => t.kind == TimerKind.prepEnd) ≠ [] := by
      intro he
      rw [liveCount, he] at hpos
      exact Nat.lt_irrefl 0 hpos
    obtain ⟨t, ht⟩ := List.exists_mem_of_ne_nil _ hne
    have hmem := (List.mem_filter.mp ht).1
    have hk : t.kind = TimerKind.prepEnd := by
      simpa using (List.mem_filter.mp ht).2
    rw [het t hmem hk]; rfl
  · intro hsome
    obtain ⟨h, hh⟩ := Option.isSome_iff_exists.mp hsome
    obtain ⟨t, ht, hk, hha⟩ := hel h hh
    have hmem : t ∈ s.host.live.filter (fun t => t.kind == TimerKind.prepEnd) :=
      List.mem_filter.mpr ⟨ht, by simp [hk]⟩
    unfold liveCount
    exact List.length_pos.mpr (fun he => by rw [he] at hmem; cases hmem)

@[simp]
theorem turnOn_beq_logDebug (e : PyVal) :
    (Action.turnOn e == Action.logDebug) = false := rfl

@[simp]
theorem turnOn_beq_logInfo (e : PyVal) :
    (Action.turnOn e == Action.logInfo) = false := rfl

@[simp]
theorem turnOn_beq_logWarning (e : PyVal) :
    (Action.turnOn e == Action.logWarning) = false := rfl

@[simp]
theorem turnOn_beq_logError (e : PyVal) :
    (Action.turnOn e == Action.logError) = false := rfl

@[simp]
theorem logDebug_beq_turnOn (e : PyVal) :
    (Action.logDebug == Action.turnOn e) = false := rfl

@[simp]
theorem logInfo_beq_turnOn (e : PyVal) :
    (Action.logInfo == Action.turnOn e) = false := rfl

@[simp]
theorem turnOff_beq_turnOn (e e2 : PyVal) :
    (Action.turnOff e2 == Action.turnOn e) = false := rfl

@[simp]
theorem turnOn_beq_turnOff (e e2 : PyVal) :
    (Action.turnOn e == Action.turnOff e2) = false := rfl

/-- `cancelPrepState` never touches the prep-end handle. -/
theorem cancelPrepState_prepEnd (s : AppState) :
    (cancelPrepState s).prepEndTimerHandle = s.prepEndTimerHandle := by
  cases hP : s.prepTimerHandle <;> simp [cancelPrepState, hP]

/-- Behaviour of `next_awake_set` for an update landing inside the
preparation window: the preparation-begin action runs exactly once when no
prep-end timer is tracked, and not at all when one is. -/
theorem next_awake_set_inWindow (cfg : Config) (localTz : Int) (new : String)
    (now wake tzoff : Int) (s : AppState)
    (hparse : parse_next_awake_time localTz new = some (wake, tzoff))
    (hge : wake - cfg.prep_offset_minutes * 60 ≤ now) (hlt : now < wake) :
    (s.prepEndTimerHandle.isSome = true →
      (next_awake_set cfg localTz new now s).2.count
        (Action.turnOn cfg.warm_water_entity) = 0) ∧
    (s.prepEndTimerHandle = none →
      (next_awake_set cfg localTz new now s).2.count
        (Action.turnOn cfg.warm_water_entity) = 1) := by
  have hE := cancelPrepState_prepEnd s
  have hnp : ¬ now < wake - cfg.prep_offset_minutes * 60 := not_lt.mpr hge
  constructor
  · intro hend
    simp only [next_awake_set, hparse]
    rw [if_neg hnp, if_pos hlt, hE, hend]
    cases hP : s.prepTimerHandle <;>
      simp [hP, List.count_append, List.count_cons]
  · intro hend
    simp only [next_awake_set, hparse]
    rw [if_neg hnp, if_pos hlt, hE, hend]
    rw [awake_preparation_tasks_snd]
    rw [cancelPrepState_prepEnd, hend]
    cases hP : s.prepTimerHandle <;>
      simp [hP, List.count_append, List.count_cons]

/-- A successful body parse pins position 13 to the first time colon. -/
theorem parseBody_colon13 {cs : List Char} {n : Int}
    (h : parseBody cs = some n) : cs.get? 13 = some ':' := by
  unfold parseBody at h
  split at h
  · next yh yl mo dy sep hr mi sec h1 h2 h3 h4 h5 h6 h7 h8 h9 h10 h11 h12 =>
    exact h9
  · exact absurd h (by simp)

/-- A successfully parsed string that ends in the six characters
`+00:00` carries the explicit UTC offset `0`. -/
theorem parseIsoDT_tzOffset_utc {pre : List Char} {d : NaiveDT}
    (h : parseIsoDT (pre ++ ['+', '0', '0', ':', '0', '0']) = some d) :
    d.tzOffset = some 0 := by
  unfold parseIsoDT at h
  by_cases h19 : (pre ++ ['+', '0', '0', ':', '0', '0']).length = 19
  · rw [if_pos h19] at h
    obtain ⟨n, hn, hd⟩ := Option.map_eq_some'.mp h
    have hlen : pre.length = 13 := by
      rw [List.length_append] at h19
      simpa using h19
    have hcolon := parseBody_colon13 hn
    rw [List.get?_append_right (by omega)] at hcolon
    rw [hlen] at hcolon
    simp at hcolon
  · rw [if_neg h19] at h
    by_cases h25 : (pre ++ ['+', '0', '0', ':', '0', '0']).length = 25
    · rw [if_pos h25] at h
      have hlen : pre.length = 19 := by
        rw [List.length_append] at h25
        simpa using h25
      have hdrop : (pre ++ ['+', '0', '0', ':', '0', '0']).drop 19 =
          ['+', '0', '0', ':', '0', '0'] := by
        rw [← hlen, List.drop_left]
      rw [hdrop] at h
      cases hb : parseBody ((pre ++ ['+', '0', '0', ':', '0', '0']).take 19) with
      | none => rw [hb] at h; exact absurd h (by simp)
      | some n =>
        rw [hb] at h
        have hoff : parseOffsetTail ['+', '0', '0', ':', '0', '0'] = some 0 := by
          decide
        rw [hoff] at h
        cases h
        rfl
    · rw [if_neg h25] at h
      exact absurd h (by simp)

/-! ### Claim theorems -/

/-- C1: at every instant along every sequence of wake-time update
notifications and timer callbacks delivered to the module after
initialization, at most one prep timer and at most one prep-end timer are
live; in particular a second wake-time update can never leave two prep
timers concurrently live. -/
theorem C1_at_most_one_live_timer (cfg : Config) (localTz : Int)
    (es : List Event) :
    liveCount (run cfg localTz initState es).host TimerKind.prep ≤ 1 ∧
    liveCount (run cfg localTz initState es).host TimerKind.prepEnd ≤ 1 :=
  ⟨liveCount_le_one_of_inv (run_inv cfg localTz es initState initState_inv) _,
   liveCount_le_one_of_inv (run_inv cfg localTz es initState initState_inv) _⟩

/-- C8: a transition of the sleep/awake entity to `sleep` triggers the
lights-off scene and then warm water OFF, and leaves the whole scheduler
state (both timer handles and the host timers) unchanged. -/
theorem C8_goodnight_frame (cfg : Config) (localTz : Int) (s : AppState) :
    step cfg localTz s Event.goodnight =
      (s, [Action.turnOn cfg.turn_off_lights_scene,
        Action.turnOff cfg.warm_water_entity, Action.logInfo]) := rfl

/-- C4: a wake-time update whose string fails to parse leaves the whole
state exactly as it was, performs no timer operation and no device action,
and only logs (the handler returns normally: the `ValueError` is caught). -/
theorem C4_malformed_no_mutation (cfg : Config) (localTz : Int)
    (new : String) (now : Int) (s : AppState)
    (hbad : parse_next_awake_time localTz new = none) :
    step cfg localTz s (Event.wakeUpdate new now) =
      (s, [Action.logDebug, Action.logError]) := by
  simp [step, next_awake_set, hbad]

theorem C4_witness :
    parse_next_awake_time 0 "not-a-date" = none ∧
    step sampleConfig 0 initState (Event.wakeUpdate "not-a-date" 0) =
      (initState, [Action.logDebug, Action.logError]) :=
  ⟨by decide,
   C4_malformed_no_mutation sampleConfig 0 "not-a-date" 0 initState (by decide)⟩

/-- C10: the good-morning reaction guards on Python truthiness, so a
configured-but-falsy scene (such as the empty string) behaves exactly like
an unconfigured one: warning log, no device action; a truthy value turns
the scene on. -/
theorem C10_goodmorning_truthiness (cfg : Config) (s : AppState) :
    (cfg.goodmorning_lights_scene.truthy = false →
      activate_goodmorning_lights_scene cfg = [Action.logWarning]) ∧
    (cfg.goodmorning_lights_scene.truthy = true →
      activate_goodmorning_lights_scene cfg =
        [Action.turnOn cfg.goodmorning_lights_scene]) ∧
    step { cfg with goodmorning_lights_scene := PyVal.vStr "" } 0 s
        Event.awake =
      step { cfg with goodmorning_lights_scene := PyVal.vNone } 0 s
        Event.awake := by
  refine ⟨?_, ?_, ?_⟩
  · intro h; simp [activate_goodmorning_lights_scene, h]
  · intro h; simp [activate_goodmorning_lights_scene, h]
  · simp [step, awake_triggered, activate_goodmorning_lights_scene,
      PyVal.truthy]

theorem C10_witness :
    PyVal.truthy (PyVal.vStr "") = false ∧
    activate_goodmorning_lights_scene
        { sampleConfig with goodmorning_lights_scene := PyVal.vStr "" } =
      [Action.logWarning] :=
  ⟨by decide,
   (C10_goodmorning_truthiness
     { sampleConfig with goodmorning_lights_scene := PyVal.vStr "" }
     initState).1 (by decide)⟩

/-- C9: the offset argument goes through Python `int()`: an `int()`-
convertible non-integer (the float `30.5`, the string `"30"`) is silently
converted — floats truncated toward zero — and initialization succeeds;
only values on which `int()` raises (`"abc"`, `"30.5"`, `None`) produce
the fatal error. -/
theorem C9_offset_silent_conversion (args : Args) :
    ((∃ n, get_int_arg args "prep_offset_minutes" = Except.ok n) ↔
      pyInt (pyDictGet args "prep_offset_minutes") ≠ none) ∧
    (∀ v n, pyDictGet args "prep_offset_minutes" = v → pyInt v = some n →
      get_int_arg args "prep_offset_minutes" = Except.ok n) ∧
    pyInt (PyVal.vFloat ⟨305, 1⟩) = some 30 ∧
    pyInt (PyVal.vFloat ⟨-305, 1⟩) = some (-30) ∧
    pyInt (PyVal.vStr "30") = some 30 ∧
    pyInt (PyVal.vStr "30.5") = none ∧
    pyInt (PyVal.vStr "abc") = none ∧
    pyInt PyVal.vNone = none ∧
    initConfig sampleArgsFloat =
      Except.ok ⟨.vStr "scene.off", .vStr "switch.ww", .vStr "sensor.state",
        .vStr "sensor.next", 30, .vNone⟩ := by
  refine ⟨?_, ?_, by decide, by decide, by decide, by decide, by decide,
    by decide, by rfl⟩
  · unfold get_int_arg
    by_cases hv : pyDictGet args "prep_offset_minutes" = PyVal.vNone
    · rw [if_pos hv, hv]
      simp [pyInt]
    · rw [if_neg hv]
      cases hpi : pyInt (pyDictGet args "prep_offset_minutes") with
      | none => simp [hpi]
      | some n => simp [hpi]
  · intro v n hv hn
    unfold get_int_arg
    rw [hv]
    have hvne : v ≠ PyVal.vNone := by
      intro he; rw [he] at hn; simp [pyInt] at hn
    rw [if_neg hvne, hn]

theorem C9_witness :
    pyDictGet sampleArgsFloat "prep_offset_minutes" = PyVal.vFloat ⟨305, 1⟩ ∧
    get_int_arg sampleArgsFloat "prep_offset_minutes" = Except.ok 30 :=
  ⟨by decide,
   (C9_offset_silent_conversion sampleArgsFloat).2.1 (PyVal.vFloat ⟨305, 1⟩)
     30 (by decide) (by decide)⟩

/-- C3: every invocation of the preparation-begin callback turns warm
water ON, removes any previously live prep-end timer, and arms exactly one
fresh prep-end timer for exactly 300 seconds; every invocation of the
preparation-end callback turns warm water OFF and clears the prep-end
handle, touching nothing else. -/
theorem C3_preparation_callbacks (cfg : Config) (s s2 : AppState)
    (hI : Inv s) :
    (Action.turnOn cfg.warm_water_entity ∈ (awake_preparation_tasks cfg s).2 ∧
      (∀ t ∈ s.host.live, t.kind = TimerKind.prepEnd →
        t ∉ (awake_preparation_tasks cfg s).1.host.live) ∧
      (∃ h2, (awake_preparation_tasks cfg s).1.prepEndTimerHandle = some h2 ∧
        ∃ t ∈ (awake_preparation_tasks cfg s).1.host.live,
          t.kind = TimerKind.prepEnd ∧ t.handle = h2 ∧ t.delay = 300) ∧
      liveCount (awake_preparation_tasks cfg s).1.host TimerKind.prepEnd = 1) ∧
    ((awake_preparation_tasks_end cfg s2).2 =
        [Action.logInfo, Action.turnOff cfg.warm_water_entity] ∧
      (awake_preparation_tasks_end cfg s2).1.prepEndTimerHandle = none ∧
      (awake_preparation_tasks_end cfg s2).1.host = s2.host ∧
      (awake_preparation_tasks_end cfg s2).1.prepTimerHandle =
        s2.prepTimerHandle) := by
  obtain ⟨hb, hn, hpt, het, hpl, hel⟩ := hI
  have hlive0 := no_prepEnd_after_cancel het
  refine ⟨⟨?_, ?_, ?_, ?_⟩, ?_, rfl, rfl, rfl⟩
  · rw [awake_preparation_tasks_snd]
    cases s.prepEndTimerHandle <;> simp
  · intro t ht hk
    rw [awake_preparation_tasks_fst]
    intro hmem
    rcases List.mem_cons.mp hmem with h1 | h1
    · have hlt := hb t ht
      rw [h1] at hlt
      exact Nat.lt_irrefl _ hlt
    · exact (hlive0 t h1).2 hk
  · rw [awake_preparation_tasks_fst]
    refine ⟨s.host.nextHandle, rfl,
      ⟨s.host.nextHandle, TimerKind.prepEnd, FIVE_MINUTES_SECONDS⟩,
      List.mem_cons_self _ _, rfl, rfl, ?_⟩
    norm_num [FIVE_MINUTES_SECONDS]
  · rw [awake_preparation_tasks_fst]
    unfold liveCount
    have hnil : List.filter (fun t => t.kind == TimerKind.prepEnd)
        (match s.prepEndTimerHandle with
          | some h => (cancelTimer s.host h).live
          | none => s.host.live) = [] := by
      rw [List.filter_eq_nil_iff]
      intro t ht
      simpa using (hlive0 t ht).2
    simp [List.filter_cons, hnil]
  · simp [awake_preparation_tasks_end, turn_warm_water]

theorem C3_witness :
    Inv initState ∧
    Action.turnOn sampleConfig.warm_water_entity ∈
      (awake_preparation_tasks sampleConfig initState).2 :=
  ⟨by decide,
   ((C3_preparation_callbacks sampleConfig initState initState
     (by decide)).1).1⟩

/-- C2: for a wake-time update whose parsed value gives
`prep_instant ≤ now < wake_instant`, reached in any state the scheduler
can be in: if a prep-end timer is live the preparation-begin action does
not run (no duplicate), otherwise it runs synchronously exactly once. -/
theorem C2_in_window_exactly_once (cfg : Config) (localTz : Int)
    (es : List Event) (new : String) (now wake tzoff : Int)
    (hparse : parse_next_awake_time localTz new = some (wake, tzoff))
    (hge : wake - cfg.prep_offset_minutes * 60 ≤ now) (hlt : now < wake) :
    (0 < liveCount (run cfg localTz initState es).host TimerKind.prepEnd →
      (step cfg localTz (run cfg localTz initState es)
          (Event.wakeUpdate new now)).2.count
        (Action.turnOn cfg.warm_water_entity) = 0) ∧
    (liveCount (run cfg localTz initState es).host TimerKind.prepEnd = 0 →
      (step cfg localTz (run cfg localTz initState es)
          (Event.wakeUpdate new now)).2.count
        (Action.turnOn cfg.warm_water_entity) = 1) := by
  have hI := run_inv cfg localTz es initState initState_inv
  have hiff := prepEndLive_iff_handle hI
  have hw := next_awake_set_inWindow cfg localTz new now wake tzoff
    (run cfg localTz initState es) hparse hge hlt
  constructor
  · intro hpos
    exact hw.1 (hiff.mp hpos)
  · intro hzero
    refine hw.2 ?_
    cases hEnd : (run cfg localTz initState es).prepEndTimerHandle with
    | none => rfl
    | some h =>
      have hpos := hiff.mpr (by rw [hEnd]; rfl)
      rw [hzero] at hpos
      exact absurd hpos (lt_irrefl 0)

theorem C2_witness :
    parse_next_awake_time 0 "2024-01-01T07:00:00+00:00" =
      some (1704092400, 0) ∧
    (1704092400 - sampleConfig.prep_offset_minutes * 60 : Int) ≤ 1704091500 ∧
    liveCount (run sampleConfig 0 initState []).host TimerKind.prepEnd = 0 ∧
    (step sampleConfig 0 (run sampleConfig 0 initState [])
        (Event.wakeUpdate "2024-01-01T07:00:00+00:00" 1704091500)).2.count
      (Action.turnOn sampleConfig.warm_water_entity) = 1 :=
  ⟨by decide, by decide, by decide,
   (C2_in_window_exactly_once sampleConfig 0 [] "2024-01-01T07:00:00+00:00"
     1704091500 1704092400 0 (by decide) (by decide) (by decide)).2
     (by decide)⟩

/-- C5 counterexample: an update with `now ≥ wake_instant` arriving while
a preparation is in progress does NOT leave the scheduler with no timers
armed: the prep-end timer stays live.  Concretely, with a 30-minute
offset, an update for wake time 07:00 UTC received at 06:45 starts the
preparation (prep-end timer armed); a second update for the same wake
time received at 07:30 (after the wake instant) leaves that prep-end
timer live, contradicting the claimed Idle end state. -/
theorem C5_counterexample :
    parse_next_awake_time 0 "2024-01-01T07:00:00+00:00" =
      some (1704092400, 0) ∧
    (1704092400 : Int) ≤ 1704094200 ∧
    liveCount (run sampleConfig 0 initState
        [Event.wakeUpdate "2024-01-01T07:00:00+00:00" 1704091500,
         Event.wakeUpdate "2024-01-01T07:00:00+00:00" 1704094200]).host
      TimerKind.prepEnd = 1 :=
  ⟨by decide, by decide, by decide⟩

/-- C5 amended: for a wake-time update with `now ≥ wake_instant`
(and a nonnegative configured offset), the handler performs no device
action; any live prep timer is cancelled, so no prep timer remains; but
the prep-end side is left exactly as it was — the live prep-end timers
and the prep-end handle are unchanged — so the scheduler ends Idle only
when no preparation was in progress. -/
theorem C5_amended_window_passed (cfg : Config) (localTz : Int)
    (es : List Event) (new : String) (now wake tzoff : Int)
    (hoff : 0 ≤ cfg.prep_offset_minutes)
    (hparse : parse_next_awake_time localTz new = some (wake, tzoff))
    (hlate : wake ≤ now) :
    (∀ e, Action.turnOn e ∉
      (step cfg localTz (run cfg localTz initState es)
        (Event.wakeUpdate new now)).2) ∧
    (∀ e, Action.turnOff e ∉
      (step cfg localTz (run cfg localTz initState es)
        (Event.wakeUpdate new now)).2) ∧
    liveCount (step cfg localTz (run cfg localTz initState es)
        (Event.wakeUpdate new now)).1.host TimerKind.prep = 0 ∧
    (step cfg localTz (run cfg localTz initState es)
          (Event.wakeUpdate new now)).1.host.live.filter
        (fun t => t.kind == TimerKind.prepEnd) =
      (run cfg localTz initState es).host.live.filter
        (fun t => t.kind == TimerKind.prepEnd) ∧
    (step cfg localTz (run cfg localTz initState es)
        (Event.wakeUpdate new now)).1.prepEndTimerHandle =
      (run cfg localTz initState es).prepEndTimerHandle := by
  have hI := run_inv cfg localTz es initState initState_inv
  obtain ⟨hb1, hn1, hP1, hnoprep1, hE1, hNH1, hfilt1, hsub1⟩ :=
    cancelPrepState_spec hI
  have hoff60 : (0 : Int) ≤ cfg.prep_offset_minutes * 60 :=
    mul_nonneg hoff (by norm_num)
  have hnp : ¬ now < wake - cfg.prep_offset_minutes * 60 := by omega
  have hnw : ¬ now < wake := not_lt.mpr hlate
  simp only [step, next_awake_set, hparse]
  rw [if_neg hnp, if_neg hnw]
  refine ⟨?_, ?_, ?_, hfilt1, hE1⟩
  · intro e
    cases hP : (run cfg localTz initState es).prepTimerHandle <;> simp [hP]
  · intro e
    cases hP : (run cfg localTz initState es).prepTimerHandle <;> simp [hP]
  · unfold liveCount
    rw [List.length_eq_zero, List.filter_eq_nil_iff]
    intro t ht
    simpa using hnoprep1 t ht

theorem C5_amended_witness :
    (0 : Int) ≤ sampleConfig.prep_offset_minutes ∧
    parse_next_awake_time 0 "2024-01-01T07:00:00+00:00" =
      some (1704092400, 0) ∧
    (1704092400 : Int) ≤ 1704094200 ∧
    liveCount (step sampleConfig 0 (run sampleConfig 0 initState
        [Event.wakeUpdate "2024-01-01T07:00:00+00:00" 1704091500])
        (Event.wakeUpdate "2024-01-01T07:00:00+00:00" 1704094200)).1.host
      TimerKind.prep = 0 :=
  ⟨by decide, by decide, by decide,
   (C5_amended_window_passed sampleConfig 0
     [Event.wakeUpdate "2024-01-01T07:00:00+00:00" 1704091500]
     "2024-01-01T07:00:00+00:00" 1704094200 1704092400 0
     (by decide) (by decide) (by decide)).2.2.1⟩

/-- C6: every input the parsing pipeline accepts yields a timezone-aware
instant — the attached offset is the explicit one when the string carried
it and the process-local timezone otherwise; a stripped input ending in
`Z` gets the UTC offset `+00:00`; and every string the grammar rejects
makes parsing fail. -/
theorem C6_parse_contract (localTz : Int) (value : String) :
    (parseIsoDT (preprocessRaw value) = none →
      parse_next_awake_time localTz value = none) ∧
    (∀ d, parseIsoDT (preprocessRaw value) = some d →
      parse_next_awake_time localTz value =
        some (d.naiveSeconds - d.tzOffset.getD localTz,
          d.tzOffset.getD localTz) ∧
      ((pyStrip value.toList).getLast? = some 'Z' →
        d.tzOffset = some 0)) := by
  constructor
  · intro h
    simp [parse_next_awake_time, h]
  · intro d hd
    refine ⟨by simp [parse_next_awake_time, hd], ?_⟩
    intro hZ
    have hpp : preprocessRaw value =
        (pyStrip value.toList).dropLast ++ ['+', '0', '0', ':', '0', '0'] := by
      simp only [preprocessRaw]
      rw [if_pos hZ]
    rw [hpp] at hd
    exact parseIsoDT_tzOffset_utc hd

theorem C6_witness :
    parseIsoDT (preprocessRaw "2024-01-01T07:00:00Z") =
      some ⟨1704092400, some 0⟩ ∧
    (pyStrip ("2024-01-01T07:00:00Z").toList).getLast? = some 'Z' ∧
    parse_next_awake_time 3600 "2024-01-01T07:00:00Z" =
      some (1704092400, 0) ∧
    parse_next_awake_time 3600 "2024-01-01 07:00:00" =
      some (1704088800, 3600) ∧
    parse_next_awake_time 3600 "not-a-date" = none :=
  ⟨by decide, by decide,
   ((C6_parse_contract 3600 "2024-01-01T07:00:00Z").2
     ⟨1704092400, some 0⟩ (by decide)).1,
   by decide, by decide⟩

/-- A successful association-list lookup comes from an entry. -/
theorem lookup_mem {args : Args} {k : String} {v : PyVal}
    (h : args.lookup k = some v) : (k, v) ∈ args := by
  induction args with
  | nil => cases h
  | cons kv rest ih =>
    obtain ⟨k2, v2⟩ := kv
    rw [List.lookup_cons] at h
    by_cases hk : k = k2
    · subst hk
      simp at h
      subst h
      exact List.mem_cons_self _ _
    · have hbeq : (k == k2) = false := by simpa using hk
      rw [hbeq] at h
      simp at h
      exact List.mem_cons_of_mem _ (ih h)

/-- In a dictionary with no `None` values, a present key yields a
non-`None` value. -/
theorem pyDictGet_ne_vNone {args : Args} {key : String}
    (hclean : ∀ kv ∈ args, kv.2 ≠ PyVal.vNone)
    (hc : pyDictContains args key = true) :
    pyDictGet args key ≠ PyVal.vNone := by
  unfold pyDictContains at hc
  obtain ⟨v, hv⟩ := Option.isSome_iff_exists.mp hc
  unfold pyDictGet
  rw [hv]
  exact hclean (key, v) (lookup_mem hv)

/-- An absent key yields the `None` value. -/
theorem pyDictGet_eq_vNone {args : Args} {key : String}
    (hc : pyDictContains args key = false) :
    pyDictGet args key = PyVal.vNone := by
  unfold pyDictContains at hc
  unfold pyDictGet
  cases hv : args.lookup key with
  | none => rfl
  | some v => rw [hv] at hc; cases hc

/-- `_get_required_arg` succeeds exactly when the key or one of its
aliases is present, provided the dictionary has no `None` values. -/
theorem get_required_arg_ok_iff (args : Args) (key : String)
    (aliases : List String)
    (hclean : ∀ kv ∈ args, kv.2 ≠ PyVal.vNone) :
    (∃ v, get_required_arg args key aliases = Except.ok v) ↔
      (pyDictContains args key = true ∨
        ∃ a ∈ aliases, pyDictContains args a = true) := by
  cases hk : pyDictContains args key with
  | true =>
    have hne := pyDictGet_ne_vNone hclean hk
    simp only [get_required_arg]
    rw [if_neg (show ¬(pyDictGet args key = PyVal.vNone ∧ aliases ≠ []) from
      fun hcon => hne hcon.1)]
    rw [if_neg hne]
    exact iff_of_true ⟨_, rfl⟩ (Or.inl trivial)
  | false =>
    have hnone := pyDictGet_eq_vNone hk
    cases aliases with
    | nil =>
      simp only [get_required_arg]
      rw [if_neg (show ¬(pyDictGet args key = PyVal.vNone ∧
          ([] : List String) ≠ []) from fun hcon => hcon.2 rfl)]
      rw [if_pos hnone]
      refine iff_of_false ?_ ?_
      · rintro ⟨v, hv⟩; cases hv
      · rintro (h | ⟨a, ha, hca⟩)
        · simp at h
        · cases ha
    | cons a rest =>
      cases hf : (a :: rest).find? (fun x => pyDictContains args x) with
      | some a2 =>
        have hca2 : pyDictContains args a2 = true := List.find?_some hf
        have hne2 := pyDictGet_ne_vNone hclean hca2
        simp only [get_required_arg, hf, hnone]
        rw [if_pos (show True ∧ (a :: rest : List String) ≠ [] from
          ⟨trivial, by simp⟩)]
        rw [if_neg hne2]
        exact iff_of_true ⟨_, rfl⟩
          (Or.inr ⟨a2, List.mem_of_find?_eq_some hf, hca2⟩)
      | none =>
        simp only [get_required_arg, hf, hnone]
        rw [if_pos (show True ∧ (a :: rest : List String) ≠ [] from
          ⟨trivial, by simp⟩)]
        rw [if_pos rfl]
        refine iff_of_false ?_ ?_
        · rintro ⟨v, hv⟩; cases hv
        · rintro (h | ⟨a2, ha2, hca2⟩)
          · simp at h
          · have := List.find?_eq_none.mp hf a2 ha2
            rw [hca2] at this; exact this rfl

/-- `_get_int_arg` succeeds exactly when Python `int()` succeeds on the
configured value (with the absent key arriving as `None`). -/
theorem get_int_arg_ok_iff (args : Args) (key : String) :
    (∃ n, get_int_arg args key = Except.ok n) ↔
      pyInt (pyDictGet args key) ≠ none := by
  unfold get_int_arg
  by_cases hv : pyDictGet args key = PyVal.vNone
  · rw [if_pos hv, hv]
    simp [pyInt]
  · rw [if_neg hv]
    cases hpi : pyInt (pyDictGet args key) with
    | none => simp
    | some n => simp

/-- C7: with a configuration dictionary free of null values,
initialization succeeds if and only if every required key is present —
`turn_off_lights_scene` also satisfiable through the legacy alias
`turn_off_ligts_scene` — and the offset value is `int()`-convertible;
the optional `goodmorning_lights_scene` key plays no role in success or
failure. -/
theorem C7_init_failure_iff (args : Args)
    (hclean : ∀ kv ∈ args, kv.2 ≠ PyVal.vNone) :
    (initConfig args).isOk = true ↔ requiredConfigPresent args := by
  have hchain : ((initConfig args).isOk = true ↔
      ((∃ v, get_required_arg args "turn_off_lights_scene"
          ["turn_off_ligts_scene"] = Except.ok v) ∧
        (∃ v, get_required_arg args "ww_activate" [] = Except.ok v) ∧
        (∃ v, get_required_arg args "awake_state" [] = Except.ok v) ∧
        (∃ v, get_required_arg args "next_awake_time" [] = Except.ok v) ∧
        (∃ n, get_int_arg args "prep_offset_minutes" = Except.ok n))) := by
    unfold initConfig
    cases get_required_arg args "turn_off_lights_scene"
        ["turn_off_ligts_scene"] <;>
      cases get_required_arg args "ww_activate" [] <;>
      cases get_required_arg args "awake_state" [] <;>
      cases get_required_arg args "next_awake_time" [] <;>
      cases get_int_arg args "prep_offset_minutes" <;>
      simp [Bind.bind, Except.bind, Except.isOk, Except.toBool, Pure.pure, Except.pure]
  rw [hchain, get_required_arg_ok_iff args _ _ hclean,
    get_required_arg_ok_iff args _ _ hclean,
    get_required_arg_ok_iff args _ _ hclean,
    get_required_arg_ok_iff args _ _ hclean,
    get_int_arg_ok_iff args _]
  unfold requiredConfigPresent
  simp

theorem C7_witness :
    (initConfig [("turn_off_ligts_scene", PyVal.vStr "s"),
        ("ww_activate", PyVal.vStr "w"), ("awake_state", PyVal.vStr "a"),
        ("next_awake_time", PyVal.vStr "n"),
        ("prep_offset_minutes", PyVal.vInt 30)]).isOk = true ↔
      requiredConfigPresent [("turn_off_ligts_scene", PyVal.vStr "s"),
        ("ww_activate", PyVal.vStr "w"), ("awake_state", PyVal.vStr "a"),
        ("next_awake_time", PyVal.vStr "n"),
        ("prep_offset_minutes", PyVal.vInt 30)] :=
  C7_init_failure_iff [("turn_off_ligts_scene", PyVal.vStr "s"),
    ("ww_activate", PyVal.vStr "w"), ("awake_state", PyVal.vStr "a"),
    ("next_awake_time", PyVal.vStr "n"),
    ("prep_offset_minutes", PyVal.vInt 30)] (by decide)

end DailyRoutines
